import Mathlib

/-!
Verification of the Bravais-lattice recognition module
(ase/geometry/niggli_classes.py): the static Niggli operator table
(niggli_op_table), the brute-force operator discovery pipeline
(lattice_loop, find_niggli_ops) and the runtime identification
procedure (check_type, identify_lattice).

The module under verification imports a few operations from elsewhere in
the repository (Cell.niggli_reduce, Cell.cellpar, the bravais_lattices
constructors, the bravais_names enumeration and
get_bravais_lattice_from_reduced_form).  Those operations are not part
of the sources being verified; they enter the development either as
explicit function parameters quantified over in the theorems, or as
definitions modelled from the specification and marked as such in their
doc comments.  Floating-point numbers are idealised as real numbers.
-/

open scoped Classical

noncomputable section

namespace NiggliClasses

/-- A 3 by 3 real matrix; rows are lattice basis vectors (numpy arrays in
the source). -/
@[ext]
structure Mat3 where
  a00 : ℝ
  a01 : ℝ
  a02 : ℝ
  a10 : ℝ
  a11 : ℝ
  a12 : ℝ
  a20 : ℝ
  a21 : ℝ
  a22 : ℝ

/-- Matrix product (the numpy matmul operator used by the source). -/
def Mat3.mul (A B : Mat3) : Mat3 :=
  ⟨A.a00 * B.a00 + A.a01 * B.a10 + A.a02 * B.a20,
   A.a00 * B.a01 + A.a01 * B.a11 + A.a02 * B.a21,
   A.a00 * B.a02 + A.a01 * B.a12 + A.a02 * B.a22,
   A.a10 * B.a00 + A.a11 * B.a10 + A.a12 * B.a20,
   A.a10 * B.a01 + A.a11 * B.a11 + A.a12 * B.a21,
   A.a10 * B.a02 + A.a11 * B.a12 + A.a12 * B.a22,
   A.a20 * B.a00 + A.a21 * B.a10 + A.a22 * B.a20,
   A.a20 * B.a01 + A.a21 * B.a11 + A.a22 * B.a21,
   A.a20 * B.a02 + A.a21 * B.a12 + A.a22 * B.a22⟩

/-- Matrix transpose (the .T attribute in the source). -/
def Mat3.transpose (A : Mat3) : Mat3 :=
  ⟨A.a00, A.a10, A.a20, A.a01, A.a11, A.a21, A.a02, A.a12, A.a22⟩

/-- Determinant of a 3 by 3 matrix. -/
def Mat3.det (A : Mat3) : ℝ :=
  A.a00 * (A.a11 * A.a22 - A.a12 * A.a21)
    - A.a01 * (A.a10 * A.a22 - A.a12 * A.a20)
    + A.a02 * (A.a10 * A.a21 - A.a11 * A.a20)

/-- Matrix inverse by the adjugate formula (numpy linalg.inv; meaningful
only when the determinant is nonzero, and every use in this development
is guarded by a nonzero-determinant test mirroring the LinAlgError that
numpy raises on singular input). -/
def Mat3.inv (A : Mat3) : Mat3 :=
  ⟨(A.a11 * A.a22 - A.a12 * A.a21) / A.det,
   (A.a02 * A.a21 - A.a01 * A.a22) / A.det,
   (A.a01 * A.a12 - A.a02 * A.a11) / A.det,
   (A.a12 * A.a20 - A.a10 * A.a22) / A.det,
   (A.a00 * A.a22 - A.a02 * A.a20) / A.det,
   (A.a02 * A.a10 - A.a00 * A.a12) / A.det,
   (A.a10 * A.a21 - A.a11 * A.a20) / A.det,
   (A.a01 * A.a20 - A.a00 * A.a21) / A.det,
   (A.a00 * A.a11 - A.a01 * A.a10) / A.det⟩

/-- The identity matrix. -/
def Mat3.one : Mat3 := ⟨1, 0, 0, 0, 1, 0, 0, 0, 1⟩

/-- A diagonal matrix: the conventional cell of an orthorhombic-or-higher
lattice with edge lengths a, b, c along the axes. -/
def Mat3.diag (a b c : ℝ) : Mat3 := ⟨a, 0, 0, 0, b, 0, 0, 0, c⟩

/-- Largest entrywise absolute difference of two matrices
(numpy abs(A - B).max()). -/
def Mat3.maxAbsDiff (A B : Mat3) : ℝ :=
  max |A.a00 - B.a00| (max |A.a01 - B.a01| (max |A.a02 - B.a02|
    (max |A.a10 - B.a10| (max |A.a11 - B.a11| (max |A.a12 - B.a12|
      (max |A.a20 - B.a20| (max |A.a21 - B.a21| |A.a22 - B.a22|)))))))

/-- A flat 9-tuple of integers, exactly the format in which the source
stores each transformation operator in niggli_op_table (row-major). -/
structure IntOp where
  t0 : ℤ
  t1 : ℤ
  t2 : ℤ
  t3 : ℤ
  t4 : ℤ
  t5 : ℤ
  t6 : ℤ
  t7 : ℤ
  t8 : ℤ
deriving DecidableEq

/-- Reshape a flat integer operator into a real 3 by 3 matrix
(np.array(op, int).reshape(3, 3) followed by use in real arithmetic). -/
def IntOp.toMat3 (op : IntOp) : Mat3 :=
  ⟨(op.t0 : ℝ), (op.t1 : ℝ), (op.t2 : ℝ),
   (op.t3 : ℝ), (op.t4 : ℝ), (op.t5 : ℝ),
   (op.t6 : ℝ), (op.t7 : ℝ), (op.t8 : ℝ)⟩

/-- Integer determinant of a flat operator, interpreted row-major. -/
def IntOp.detZ (op : IntOp) : ℤ :=
  op.t0 * (op.t4 * op.t8 - op.t5 * op.t7)
    - op.t1 * (op.t3 * op.t8 - op.t5 * op.t6)
    + op.t2 * (op.t3 * op.t7 - op.t4 * op.t6)

/-- Transpose of a flat operator, interpreted row-major. -/
def IntOp.transposeZ (op : IntOp) : IntOp :=
  ⟨op.t0, op.t3, op.t6, op.t1, op.t4, op.t7, op.t2, op.t5, op.t8⟩

/-- Product of two flat operators, interpreted row-major. -/
def IntOp.mulZ (A B : IntOp) : IntOp :=
  ⟨A.t0 * B.t0 + A.t1 * B.t3 + A.t2 * B.t6,
   A.t0 * B.t1 + A.t1 * B.t4 + A.t2 * B.t7,
   A.t0 * B.t2 + A.t1 * B.t5 + A.t2 * B.t8,
   A.t3 * B.t0 + A.t4 * B.t3 + A.t5 * B.t6,
   A.t3 * B.t1 + A.t4 * B.t4 + A.t5 * B.t7,
   A.t3 * B.t2 + A.t4 * B.t5 + A.t5 * B.t8,
   A.t6 * B.t0 + A.t7 * B.t3 + A.t8 * B.t6,
   A.t6 * B.t1 + A.t7 * B.t4 + A.t8 * B.t7,
   A.t6 * B.t2 + A.t7 * B.t5 + A.t8 * B.t8⟩

/-- Adjugate of a flat operator, interpreted row-major. -/
def IntOp.adjZ (op : IntOp) : IntOp :=
  ⟨op.t4 * op.t8 - op.t5 * op.t7,
   op.t2 * op.t7 - op.t1 * op.t8,
   op.t1 * op.t5 - op.t2 * op.t4,
   op.t5 * op.t6 - op.t3 * op.t8,
   op.t0 * op.t8 - op.t2 * op.t6,
   op.t2 * op.t3 - op.t0 * op.t5,
   op.t3 * op.t7 - op.t4 * op.t6,
   op.t1 * op.t6 - op.t0 * op.t7,
   op.t0 * op.t4 - op.t1 * op.t3⟩

/-- Scale a flat operator by an integer. -/
def IntOp.scaleZ (k : ℤ) (op : IntOp) : IntOp :=
  ⟨k * op.t0, k * op.t1, k * op.t2, k * op.t3, k * op.t4,
   k * op.t5, k * op.t6, k * op.t7, k * op.t8⟩

/-- The identity operator, the flat tuple (1,0,0,0,1,0,0,0,1) appearing
throughout niggli_op_table. -/
def idOp : IntOp := ⟨1, 0, 0, 0, 1, 0, 0, 0, 1⟩

/-- The integer inverse of the transpose of a unimodular operator:
since det equals plus or minus one, the inverse of op.T is det times
the adjugate of op.T. -/
def intInvT (op : IntOp) : IntOp := op.transposeZ.adjZ.scaleZ op.detZ

/-- Entrywise rounding of a real matrix to a flat integer operator
(op.round().astype(int) followed by tuple(int_op.flat)). -/
def roundMat (M : Mat3) : IntOp :=
  ⟨round M.a00, round M.a01, round M.a02,
   round M.a10, round M.a11, round M.a12,
   round M.a20, round M.a21, round M.a22⟩

/-- Cell parameters: three edge lengths and three angles in degrees
(the result of Cell.cellpar in the source). -/
structure CellPar where
  la : ℝ
  lb : ℝ
  lc : ℝ
  alpha : ℝ
  beta : ℝ
  gamma : ℝ

/-- Euclidean length of a row vector. -/
def vlen (x y z : ℝ) : ℝ := Real.sqrt (x * x + y * y + z * z)

/-- Angle, in degrees, whose cosine is d divided by the product of the
two lengths. -/
def angleDeg (d l1 l2 : ℝ) : ℝ := Real.arccos (d / (l1 * l2)) * 180 / Real.pi

/-- Modelled from the spec: Cell.cellpar is not under src/.  Per the
spec (section 6) a cell result carries three lengths and three angles;
this is the standard crystallographic parameter set of a row-basis cell:
row lengths, and the angle alpha between rows b and c, beta between a
and c, gamma between a and b, in degrees. -/
def cellpar (M : Mat3) : CellPar :=
  ⟨vlen M.a00 M.a01 M.a02,
   vlen M.a10 M.a11 M.a12,
   vlen M.a20 M.a21 M.a22,
   angleDeg (M.a10 * M.a20 + M.a11 * M.a21 + M.a12 * M.a22)
     (vlen M.a10 M.a11 M.a12) (vlen M.a20 M.a21 M.a22),
   angleDeg (M.a00 * M.a20 + M.a01 * M.a21 + M.a02 * M.a22)
     (vlen M.a00 M.a01 M.a02) (vlen M.a20 M.a21 M.a22),
   angleDeg (M.a00 * M.a10 + M.a01 * M.a11 + M.a02 * M.a12)
     (vlen M.a00 M.a01 M.a02) (vlen M.a10 M.a11 M.a12)⟩

/-- Largest componentwise absolute difference of two parameter sets
(numpy abs(p - q).max() on the 6-vectors). -/
def cellparMaxAbsDiff (p q : CellPar) : ℝ :=
  max |p.la - q.la| (max |p.lb - q.lb| (max |p.lc - q.lc|
    (max |p.alpha - q.alpha| (max |p.beta - q.beta| |p.gamma - q.gamma|))))

/-- Stated from the specification words, for comparison with the check
the code performs: the largest componentwise relative error of a
parameter set against a reference parameter set. -/
def cellparRelErr (p q : CellPar) : ℝ :=
  max (|p.la - q.la| / |q.la|) (max (|p.lb - q.lb| / |q.lb|)
    (max (|p.lc - q.lc| / |q.lc|) (max (|p.alpha - q.alpha| / |q.alpha|)
      (max (|p.beta - q.beta| / |q.beta|) (|p.gamma - q.gamma| / |q.gamma|)))))

/-- The Python exception kinds observable in this module.  The name
error constructor stands for the unbound identifier on the final line of
identify_lattice (the placeholder failure trigger). -/
inductive PyErr where
  | assertionError : PyErr
  | unconventionalLattice : PyErr
  | runtimeError : PyErr
  | valueError : PyErr
  | keyError : PyErr
  | nameError : PyErr
  | linAlgError : PyErr
deriving DecidableEq

/-- The exception kinds caught by the except clause in check_type:
AssertionError, UnconventionalLattice and RuntimeError. -/
def caughtErr : PyErr → Bool
  | .assertionError => true
  | .unconventionalLattice => true
  | .runtimeError => true
  | _ => false

/-- A recognised Bravais lattice object: its family name and its
conventional cell (lat.name and lat.tocell() in the source). -/
structure Lat where
  name : String
  tocell : Mat3

/-- The static operator table from the source, transcribed verbatim:
family name to the list of flat integer operators, in the dict order of
the source literal. -/
def niggli_op_table : List (String × List IntOp) :=
  [("BCC", [⟨1, 0, 0, 0, 1, 0, 0, 0, 1⟩]),
   ("BCT", [⟨1, 0, 0, 0, 1, 0, 0, 0, 1⟩,
            ⟨0, 1, 0, 0, 0, 1, 1, 0, 0⟩,
            ⟨0, 1, 0, 1, 0, 0, 1, 1, -1⟩,
            ⟨-1, 0, 1, 0, 1, 0, -1, 1, 0⟩,
            ⟨1, 1, 0, 1, 0, 0, 0, 0, -1⟩]),
   ("CUB", [⟨1, 0, 0, 0, 1, 0, 0, 0, 1⟩]),
   ("FCC", [⟨1, 0, 0, 0, 1, 0, 0, 0, 1⟩]),
   ("HEX", [⟨1, 0, 0, 0, 1, 0, 0, 0, 1⟩, ⟨0, 1, 0, 0, 0, 1, 1, 0, 0⟩]),
   ("ORC", [⟨1, 0, 0, 0, 1, 0, 0, 0, 1⟩]),
   ("ORCC", [⟨1, 0, 0, 0, 1, 0, 0, 0, 1⟩,
             ⟨1, 0, -1, 1, 0, 0, 0, -1, 0⟩,
             ⟨-1, 1, 0, -1, 0, 0, 0, 0, 1⟩,
             ⟨0, 1, 0, 0, 0, 1, 1, 0, 0⟩,
             ⟨0, -1, 1, 0, -1, 0, 1, 0, 0⟩]),
   ("ORCF", [⟨0, -1, 0, 0, 1, -1, 1, 0, 0⟩, ⟨-1, 0, 0, 1, 0, 1, 1, 1, 0⟩]),
   ("ORCI", [⟨0, 0, -1, 0, -1, 0, -1, 0, 0⟩,
             ⟨0, 0, 1, -1, 0, 0, -1, -1, 0⟩,
             ⟨0, 1, 0, 1, 0, 0, 1, 1, -1⟩,
             ⟨0, -1, 0, 1, 0, -1, 1, -1, 0⟩]),
   ("RHL", [⟨0, -1, 0, 1, 1, 1, -1, 0, 0⟩,
            ⟨1, 0, 0, 0, 1, 0, 0, 0, 1⟩,
            ⟨1, -1, 0, 1, 0, -1, 1, 0, 0⟩]),
   ("TET", [⟨1, 0, 0, 0, 1, 0, 0, 0, 1⟩, ⟨0, 1, 0, 0, 0, 1, 1, 0, 0⟩])]

/-- Dictionary lookup niggli_op_table[name]; none corresponds to the
KeyError a Python dict raises on a missing key. -/
def lookupTable (name : String) : Option (List IntOp) :=
  match niggli_op_table.find? (fun p => p.1 == name) with
  | some p => some p.2
  | none => none

/-- The candidate conventional cell built by check_type for one
operator: Cell(np.linalg.inv(op.T) @ rcell). -/
def candidateCell (op : IntOp) (rcell : Mat3) : Mat3 :=
  Mat3.mul (Mat3.inv (Mat3.transpose op.toMat3)) rcell

/-- The body of the loop over operators in check_type.  The recognizer
argument embeds get_bravais_lattice_from_reduced_form, which lives
outside the verified sources; it is kept as an explicit function
parameter.  A recognised lattice whose family is TRI, MCL or MCLC is
dropped; caught exception kinds skip the operator; any other exception
propagates. -/
def checkOps (recognize : Mat3 → Except PyErr Lat) (rcell : Mat3) :
    List IntOp → Except PyErr (List Lat)
  | [] => .ok []
  | op :: rest =>
    if Mat3.det (Mat3.transpose op.toMat3) = 0 then .error .linAlgError
    else
      match recognize (candidateCell op rcell) with
      | .error e =>
        if caughtErr e then checkOps recognize rcell rest else .error e
      | .ok lat =>
        if lat.name ∈ ["TRI", "MCL", "MCLC"] then checkOps recognize rcell rest
        else Except.map (fun l => lat :: l) (checkOps recognize rcell rest)

/-- check_type from the source: look the family up in the operator
table and run the loop over its operators. -/
def check_type (recognize : Mat3 → Except PyErr Lat) (rcell : Mat3)
    (name : String) : Except PyErr (List Lat) :=
  match lookupTable name with
  | some ops => checkOps recognize rcell ops
  | none => .error .keyError

/-- The double loop at the end of identify_lattice: for each name in
bravais_names in order, return the first result lattice carrying that
name. -/
def firstByName (names : List String) (results : List Lat) : Option Lat :=
  names.findSome? (fun n => results.find? (fun lat => lat.name == n))

/-- The outer loop of identify_lattice over candidate family names:
skip the monoclinic and triclinic families and the families of
dimension below three, otherwise run check_type and return the first
result matched by name order; fall through to the placeholder failure
(the unbound name on the last line) when the list is exhausted. -/
def identifyGo (recognize : Mat3 → Except PyErr Lat) (bn : List String)
    (nd : String → ℕ) (rcell : Mat3) : List String → Except PyErr Lat
  | [] => .error .nameError
  | testlat :: rest =>
    if testlat ∈ ["MCL", "MCLC", "TRI"] then identifyGo recognize bn nd rcell rest
    else if nd testlat < 3 then identifyGo recognize bn nd rcell rest
    else
      match check_type recognize rcell testlat with
      | .error e => .error e
      | .ok results =>
        match firstByName bn results with
        | some lat => .ok lat
        | none => identifyGo recognize bn nd rcell rest

/-- identify_lattice from the source.  The bravais_names enumeration,
the per-family dimension attribute and Cell.niggli_reduce live outside
the verified sources and are explicit parameters; rcell is the first
component of the reduction and the reduction operator is unused, as in
the source. -/
def identify_lattice (recognize : Mat3 → Except PyErr Lat)
    (bn : List String) (nd : String → ℕ) (nr : Mat3 → Mat3 × Mat3)
    (cell : Mat3) : Except PyErr Lat :=
  identifyGo recognize bn nd (nr cell).1 bn

/-- Contiguous-sublist test on character lists: the Python substring
test varname in the string abc. -/
def isInfixChars : List Char → List Char → Bool
  | needle, [] => needle.isEmpty
  | needle, c :: rest => needle.isPrefixOf (c :: rest) || isInfixChars needle rest

/-- The grid selected for one lattice parameter by lattice_loop: the
length grid for a name contained in the string abc, the angle grid for
the name alpha, otherwise the ValueError the source raises. -/
def paramGrid (lengthGrid angleGrid : List ℝ) (varname : String) :
    Except PyErr (List ℝ) :=
  if isInfixChars varname.data ['a', 'b', 'c'] then .ok lengthGrid
  else if varname = "alpha" then .ok angleGrid
  else .error .valueError

/-- The list of per-parameter grids built by the first loop of
lattice_loop. -/
def paramGrids (lengthGrid angleGrid : List ℝ) :
    List String → Except PyErr (List (List ℝ))
  | [] => .ok []
  | v :: rest =>
    match paramGrid lengthGrid angleGrid v with
    | .ok g => Except.map (fun gs => g :: gs) (paramGrids lengthGrid angleGrid rest)
    | .error e => .error e

/-- Cartesian product of the grids in the order produced by
itertools.product: the first grid varies slowest. -/
def listProd : List (List ℝ) → List (List ℝ)
  | [] => [[]]
  | g :: gs => (g.map (fun x => (listProd gs).map (fun ps => x :: ps))).flatten

/-- A lattice family descriptor as lattice_loop consumes it: its
parameter names and its constructor.  The constructors live outside the
verified sources (the bravais_lattices classes), so construction is an
explicit function from a parameter combination to either a lattice or
an exception. -/
structure LatCls where
  parameters : List String
  construct : List ℝ → Except PyErr Lat

/-- The yield loop of lattice_loop: construct each combination, keep
successes, silently skip combinations that fail with
UnconventionalLattice, and propagate any other exception. -/
def collectLats (latcls : LatCls) : List (List ℝ) → Except PyErr (List Lat)
  | [] => .ok []
  | ps :: rest =>
    match latcls.construct ps with
    | .ok lat => Except.map (fun ls => lat :: ls) (collectLats latcls rest)
    | .error .unconventionalLattice => collectLats latcls rest
    | .error e => .error e

/-- lattice_loop from the source, as the finite list of lattices the
generator yields (or the exception it raises). -/
def lattice_loop (latcls : LatCls) (lengthGrid angleGrid : List ℝ) :
    Except PyErr (List Lat) :=
  match paramGrids lengthGrid angleGrid latcls.parameters with
  | .ok grids => collectLats latcls (listProd grids)
  | .error e => .error e

/-- Tally a key into the discovered-operator dictionary, preserving
Python dict insertion order. -/
def bump : List (IntOp × ℕ) → IntOp → List (IntOp × ℕ)
  | [], k => [(k, 1)]
  | (k', c) :: rest, k =>
    if k' = k then (k', c + 1) :: rest else (k', c) :: bump rest k

/-- The per-sample loop of find_niggli_ops.  For each sampled lattice:
Niggli-reduce its cell, assert that the transform rounds to an integer
matrix within 1e-12, invert the transform (a singular transform would
raise LinAlgError), assert the inverse also rounds to an integer matrix
within 1e-12, tally the rounded transform, then assert that the cell
parameters of op.T times the cell agree with those of the reduced cell
within 1e-7 in absolute value. -/
def find_niggli_opsGo (nr : Mat3 → Mat3 × Mat3) :
    List Lat → List (IntOp × ℕ) → Except PyErr (List (IntOp × ℕ))
  | [], acc => .ok acc
  | lat :: rest, acc =>
    if ¬ Mat3.maxAbsDiff (nr lat.tocell).2 (roundMat (nr lat.tocell).2).toMat3 < 1e-12 then
      .error .assertionError
    else if Mat3.det (nr lat.tocell).2 = 0 then .error .linAlgError
    else if ¬ Mat3.maxAbsDiff (Mat3.inv (nr lat.tocell).2)
        (roundMat (Mat3.inv (nr lat.tocell).2)).toMat3 < 1e-12 then
      .error .assertionError
    else if ¬ cellparMaxAbsDiff
        (cellpar (Mat3.mul (Mat3.transpose (nr lat.tocell).2) lat.tocell))
        (cellpar (nr lat.tocell).1) < 1e-7 then
      .error .assertionError
    else find_niggli_opsGo nr rest (bump acc (roundMat (nr lat.tocell).2))

/-- find_niggli_ops from the source: sample the family over the grids
and tally the discovered Niggli operators.  Cell.niggli_reduce lives
outside the verified sources and is an explicit parameter nr. -/
def find_niggli_ops (nr : Mat3 → Mat3 × Mat3) (latcls : LatCls)
    (lengthGrid angleGrid : List ℝ) : Except PyErr (List (IntOp × ℕ)) :=
  match lattice_loop latcls lengthGrid angleGrid with
  | .ok lats => find_niggli_opsGo nr lats []
  | .error e => .error e

/-- All four per-sample checks of find_niggli_ops succeed on a sampled
lattice: the transform rounds to integers within 1e-12, it is
invertible, its inverse rounds to integers within 1e-12, and the
cell-parameter round trip holds within 1e-7 absolutely. -/
def passesChecks (nr : Mat3 → Mat3 × Mat3) (lat : Lat) : Prop :=
  Mat3.maxAbsDiff (nr lat.tocell).2 (roundMat (nr lat.tocell).2).toMat3 < 1e-12 ∧
  Mat3.det (nr lat.tocell).2 ≠ 0 ∧
  Mat3.maxAbsDiff (Mat3.inv (nr lat.tocell).2)
    (roundMat (Mat3.inv (nr lat.tocell).2)).toMat3 < 1e-12 ∧
  cellparMaxAbsDiff
    (cellpar (Mat3.mul (Mat3.transpose (nr lat.tocell).2) lat.tocell))
    (cellpar (nr lat.tocell).1) < 1e-7

/-- The outcome of trying one operator in check_type, as a total
function: the recognised lattice if recognition succeeds and its family
is not an excluded one, otherwise nothing. -/
def acceptOp (recognize : Mat3 → Except PyErr Lat) (rcell : Mat3)
    (op : IntOp) : Option Lat :=
  match recognize (candidateCell op rcell) with
  | .ok lat => if lat.name ∈ ["TRI", "MCL", "MCLC"] then none else some lat
  | .error _ => none

/-- Whether the outer loop of identify_lattice actually tests a family
name rather than skipping it. -/
def keepName (nd : String → ℕ) (n : String) : Bool :=
  if n ∈ ["MCL", "MCLC", "TRI"] then false
  else if nd n < 3 then false
  else true

/-- The outer loop of identify_lattice with the skip conditions removed,
for stating that the loop is equivalent to running on the pre-filtered
name list. -/
def identifyGoF (recognize : Mat3 → Except PyErr Lat) (bn : List String)
    (rcell : Mat3) : List String → Except PyErr Lat
  | [] => .error .nameError
  | testlat :: rest =>
    match check_type recognize rcell testlat with
    | .error e => .error e
    | .ok results =>
      match firstByName bn results with
      | some lat => .ok lat
      | none => identifyGoF recognize bn rcell rest

/-- The conventional cubic cell with edge length three: rows are the
orthogonal basis vectors of length 3. -/
def threeI : Mat3 := Mat3.diag 3 3 3

/-- The cubic lattice object recognised for that cell. -/
def cubLat : Lat := ⟨"CUB", threeI⟩

/-- Modelled from the spec: the bravais_names enumeration is imported
from outside the verified sources.  Per the spec (section 3) it is the
fixed list of three-dimensional Bravais family labels, the non-excluded
members of which are exactly the keys of niggli_op_table, followed by
the excluded monoclinic and triclinic variants.  The spec fixes the
membership and the exclusions but not the relative order; this model
lists the most specific family first, as the spec examples imply. -/
def bravais_names_model : List String :=
  ["CUB", "FCC", "BCC", "TET", "BCT", "ORC", "ORCF", "ORCI", "ORCC",
   "HEX", "RHL", "MCL", "MCLC", "TRI"]

/-- Modelled from the spec: the per-family dimension attribute; every
family in the modelled enumeration is three-dimensional. -/
def ndim_model : String → ℕ := fun _ => 3

/-- Modelled from the spec: get_bravais_lattice_from_reduced_form is
not under src/.  Per the spec (sections 4.3 and 7) validation is a
parameter-based construction that succeeds exactly on cells consistent
with a family and fails with the unconventional-lattice condition
otherwise.  This instance validates the conventional cubic cell with
edge length three as the cubic family and rejects everything else. -/
def recognize_cubic : Mat3 → Except PyErr Lat :=
  fun c => if c = threeI then .ok cubLat else .error .unconventionalLattice

/-- A recogniser that rejects every candidate with the
unconventional-lattice condition, for exercising the no-match path. -/
def recognize_none : Mat3 → Except PyErr Lat :=
  fun _ => .error .unconventionalLattice

/-- Modelled from the spec: Cell.niggli_reduce is not under src/.  Per
the spec (section 3) the reduced cell is related to the original by an
integer unimodular transform with reduced equal to the transform
transposed times the original; on a cell that is already Niggli-reduced
the reduction is the identity transform.  This instance returns the
cell unchanged with the identity transform. -/
def nr_id : Mat3 → Mat3 × Mat3 := fun c => (c, Mat3.one)

/-- An axis-aligned cell with a very short third basis vector. -/
def cellTiny : Mat3 := Mat3.diag 1 1 1e-9

/-- Modelled from the spec: a Niggli reduction consistent with the
spec's tolerance language (section 4.2: the round trip holds within
numerical tolerance), returning an identity transform and a reduced
cell whose third edge differs from the sampled cell's third edge by one
part in a billion absolutely. -/
def redTiny : Mat3 := Mat3.diag 1 1 2e-9

/-- The reduction function of that model. -/
def nr_tiny : Mat3 → Mat3 × Mat3 := fun _ => (redTiny, Mat3.one)

/-- A reduction whose transform has a non-integer entry, for exercising
the integrality assertion. -/
def nr_bad : Mat3 → Mat3 × Mat3 := fun c => (c, Mat3.diag (1 / 4) 1 1)

/-- A family descriptor with a single length parameter whose
construction always yields the given lattice. -/
def singleLatCls (lat : Lat) : LatCls := ⟨["a"], fun _ => .ok lat⟩

/-- A family descriptor with a single length parameter that rejects the
parameter combination with value two as unconventional and accepts
everything else. -/
def skipLatCls : LatCls :=
  ⟨["a"], fun ps => if ps = [2] then .error .unconventionalLattice
                    else .ok ⟨"X", threeI⟩⟩

lemma vlen_x (a : ℝ) (ha : 0 ≤ a) : vlen a 0 0 = a := by
  rw [vlen, show a * a + 0 * 0 + 0 * 0 = a * a by ring, Real.sqrt_mul_self ha]

lemma vlen_y (b : ℝ) (hb : 0 ≤ b) : vlen 0 b 0 = b := by
  rw [vlen, show 0 * 0 + b * b + 0 * 0 = b * b by ring, Real.sqrt_mul_self hb]

lemma vlen_z (c : ℝ) (hc : 0 ≤ c) : vlen 0 0 c = c := by
  rw [vlen, show 0 * 0 + 0 * 0 + c * c = c * c by ring, Real.sqrt_mul_self hc]

lemma angleDeg_zero (l1 l2 : ℝ) : angleDeg 0 l1 l2 = 90 := by
  rw [angleDeg, zero_div, Real.arccos_zero]
  field_simp
  ring

lemma cellpar_diag (a b c : ℝ) (ha : 0 ≤ a) (hb : 0 ≤ b) (hc : 0 ≤ c) :
    cellpar (Mat3.diag a b c) = ⟨a, b, c, 90, 90, 90⟩ := by
  rw [cellpar, Mat3.diag]
  simp only
  rw [vlen_x a ha, vlen_y b hb, vlen_z c hc,
    show (0 : ℝ) * 0 + b * 0 + 0 * c = 0 by ring,
    show (a : ℝ) * 0 + 0 * 0 + 0 * c = 0 by ring,
    show (a : ℝ) * 0 + 0 * b + 0 * 0 = 0 by ring,
    angleDeg_zero, angleDeg_zero, angleDeg_zero]

lemma transpose_one : Mat3.transpose Mat3.one = Mat3.one := by
  rw [Mat3.transpose, Mat3.one]

lemma det_one : Mat3.det Mat3.one = 1 := by
  rw [Mat3.det, Mat3.one]; norm_num

lemma one_mul_mat (M : Mat3) : Mat3.mul Mat3.one M = M := by
  ext <;> simp [Mat3.mul, Mat3.one]

lemma inv_one : Mat3.inv Mat3.one = Mat3.one := by
  ext <;> simp [Mat3.inv, Mat3.one, Mat3.det]

lemma roundMat_one : roundMat Mat3.one = idOp := by
  rw [roundMat, Mat3.one, idOp]
  norm_num

lemma toMat3_idOp : IntOp.toMat3 idOp = Mat3.one := by
  rw [IntOp.toMat3, idOp, Mat3.one]
  norm_num

lemma maxAbsDiff_self (M : Mat3) : Mat3.maxAbsDiff M M = 0 := by
  simp [Mat3.maxAbsDiff]

lemma det_toMat3 (op : IntOp) : Mat3.det op.toMat3 = (op.detZ : ℝ) := by
  rw [Mat3.det, IntOp.toMat3, IntOp.detZ]
  push_cast
  ring

lemma det_transpose (M : Mat3) : Mat3.det (Mat3.transpose M) = Mat3.det M := by
  rw [Mat3.det, Mat3.transpose, Mat3.det]
  ring

lemma table_det_pm :
    ∀ p ∈ niggli_op_table, ∀ op ∈ p.2, op.detZ = 1 ∨ op.detZ = -1 := by
  decide

lemma lookup_mem {name : String} {ops : List IntOp}
    (h : lookupTable name = some ops) : (name, ops) ∈ niggli_op_table := by
  rw [lookupTable] at h
  cases hf : niggli_op_table.find? (fun p => p.1 == name) with
  | none => rw [hf] at h; exact absurd h (by simp)
  | some p =>
    rw [hf] at h
    have hp : p ∈ niggli_op_table := List.mem_of_find?_eq_some hf
    have hname := List.find?_some hf
    simp only [beq_iff_eq] at hname
    have : p = (name, ops) := by
      cases p
      simp only [Option.some.injEq] at h
      simp only at hname
      simp [hname, h]
    exact this ▸ hp

lemma table_dets_nonzero {name : String} {ops : List IntOp}
    (h : lookupTable name = some ops) :
    ∀ op ∈ ops, Mat3.det (Mat3.transpose op.toMat3) ≠ 0 := by
  intro op hop
  rw [det_transpose, det_toMat3]
  rcases table_det_pm (name, ops) (lookup_mem h) op hop with h1 | h1 <;>
    rw [h1] <;> norm_num

lemma checkOps_eq (rg : Mat3 → Except PyErr Lat) (rcell : Mat3)
    (ops : List IntOp)
    (hdet : ∀ op ∈ ops, Mat3.det (Mat3.transpose op.toMat3) ≠ 0)
    (hc : ∀ c e, rg c = .error e → caughtErr e = true) :
    checkOps rg rcell ops = .ok (ops.filterMap (acceptOp rg rcell)) := by
  induction ops with
  | nil => simp [checkOps]
  | cons op rest ih =>
    have ih2 := ih (fun o ho => hdet o (List.mem_cons_of_mem _ ho))
    rw [checkOps, if_neg (hdet op (List.mem_cons_self _ _))]
    cases hrg : rg (candidateCell op rcell) with
    | error e =>
      simp only [hc _ _ hrg, if_true, ih2]
      simp [acceptOp, hrg]
    | ok lat =>
      by_cases hname : lat.name ∈ ["TRI", "MCL", "MCLC"]
      · simp only [if_pos hname, ih2]
        simp [acceptOp, hrg, hname]
      · simp only [if_neg hname, ih2]
        simp [acceptOp, hrg, hname, Except.map]

lemma checkOps_names (rg : Mat3 → Except PyErr Lat) (rcell : Mat3) :
    ∀ (ops : List IntOp) (l : List Lat), checkOps rg rcell ops = .ok l →
      ∀ lat ∈ l, lat.name ∉ ["TRI", "MCL", "MCLC"] := by
  intro ops
  induction ops with
  | nil =>
    intro l h
    rw [checkOps] at h
    simp only [Except.ok.injEq] at h
    subst h
    simp
  | cons op rest ih =>
    intro l h
    rw [checkOps] at h
    by_cases hdet : Mat3.det (Mat3.transpose op.toMat3) = 0
    · rw [if_pos hdet] at h; exact absurd h (by simp)
    rw [if_neg hdet] at h
    cases hrg : rg (candidateCell op rcell) with
    | error e =>
      rw [hrg] at h
      by_cases hce : caughtErr e = true
      · simp only [hce, if_true] at h; exact ih l h
      · simp [hce] at h
    | ok lat =>
      rw [hrg] at h
      by_cases hname : lat.name ∈ ["TRI", "MCL", "MCLC"]
      · simp only [if_pos hname] at h; exact ih l h
      · simp only [if_neg hname] at h
        cases hrec : checkOps rg rcell rest with
        | error e => rw [hrec] at h; exact absurd h (by simp [Except.map])
        | ok l2 =>
          rw [hrec] at h
          simp only [Except.map, Except.ok.injEq] at h
          subst h
          intro x hx
          rcases List.mem_cons.mp hx with rfl | hx2
          · exact hname
          · exact ih l2 hrec x hx2

lemma firstByName_mem {bn : List String} {l : List Lat} {lat : Lat}
    (h : firstByName bn l = some lat) : lat ∈ l := by
  rw [firstByName] at h
  obtain ⟨n, _, hf⟩ := List.exists_of_findSome?_eq_some h
  exact List.mem_of_find?_eq_some hf

lemma firstByName_isSome {bn : List String} {l : List Lat} {lat : Lat}
    (h1 : lat ∈ l) (h2 : lat.name ∈ bn) : (firstByName bn l).isSome := by
  induction bn with
  | nil => simp at h2
  | cons n rest ih =>
    rw [firstByName, List.findSome?_cons]
    cases hf : List.find? (fun x => x.name == n) l with
    | some x => simp
    | none =>
      rcases List.mem_cons.mp h2 with heq | h2r
      · exfalso
        have := List.find?_eq_none.mp hf lat h1
        simp [heq] at this
      · exact ih h2r

lemma firstByName_empty (bn : List String) : firstByName bn [] = none := by
  induction bn with
  | nil => rfl
  | cons n rest ih => rw [firstByName] at ih ⊢; rw [List.findSome?_cons]; simp [ih]

lemma identifyGo_no_match (rg : Mat3 → Except PyErr Lat) (bn : List String)
    (nd : String → ℕ) (rcell : Mat3) :
    ∀ lst : List String,
      (∀ name ∈ lst, name ∉ ["MCL", "MCLC", "TRI"] → ¬ nd name < 3 →
        check_type rg rcell name = .ok []) →
      identifyGo rg bn nd rcell lst = .error .nameError := by
  intro lst
  induction lst with
  | nil => intro _; rw [identifyGo]
  | cons t rest ih =>
    intro h
    have hrest := fun n hn => h n (List.mem_cons_of_mem _ hn)
    rw [identifyGo]
    by_cases h1 : t ∈ ["MCL", "MCLC", "TRI"]
    · rw [if_pos h1]; exact ih hrest
    rw [if_neg h1]
    by_cases h2 : nd t < 3
    · rw [if_pos h2]; exact ih hrest
    rw [if_neg h2]
    simp only [h t (List.mem_cons_self _ _) h1 h2, firstByName_empty]
    exact ih hrest

lemma identifyGo_skip_pre (rg : Mat3 → Except PyErr Lat) (bn : List String)
    (nd : String → ℕ) (rcell : Mat3) (l2 : List String) :
    ∀ l1 : List String,
      (∀ G ∈ l1, G ∉ ["MCL", "MCLC", "TRI"] → ¬ nd G < 3 →
        check_type rg rcell G = .ok []) →
      identifyGo rg bn nd rcell (l1 ++ l2) = identifyGo rg bn nd rcell l2 := by
  intro l1
  induction l1 with
  | nil => intro _; rfl
  | cons t rest ih =>
    intro h
    have hrest := fun n hn => h n (List.mem_cons_of_mem _ hn)
    rw [List.cons_append, identifyGo]
    by_cases h1 : t ∈ ["MCL", "MCLC", "TRI"]
    · rw [if_pos h1]; exact ih hrest
    rw [if_neg h1]
    by_cases h2 : nd t < 3
    · rw [if_pos h2]; exact ih hrest
    rw [if_neg h2]
    simp only [h t (List.mem_cons_self _ _) h1 h2, firstByName_empty]
    exact ih hrest

lemma identifyGo_filter (rg : Mat3 → Except PyErr Lat) (bn : List String)
    (nd : String → ℕ) (rcell : Mat3) :
    ∀ lst : List String,
      identifyGo rg bn nd rcell lst
        = identifyGoF rg bn rcell (lst.filter (keepName nd)) := by
  intro lst
  induction lst with
  | nil => rfl
  | cons t rest ih =>
    rw [identifyGo]
    by_cases h1 : t ∈ ["MCL", "MCLC", "TRI"]
    · rw [if_pos h1, ih, List.filter_cons]
      simp [keepName, h1]
    by_cases h2 : nd t < 3
    · rw [if_neg h1, if_pos h2, ih, List.filter_cons]
      simp [keepName, h1, h2]
    rw [if_neg h1, if_neg h2, List.filter_cons]
    have hk : keepName nd t = true := by simp [keepName, h1, h2]
    simp only [hk, if_true]
    rw [identifyGoF]
    cases hct : check_type rg rcell t with
    | error e => simp
    | ok results =>
      cases hfb : firstByName bn results with
      | some lat => simp [hfb]
      | none => simp [hfb, ih]

/-- Claim C1: when no candidate family validates under any precomputed
operator (check_type yields an empty list for every family name the
outer loop actually tests), identify_lattice does not return a lattice:
it falls through to the placeholder failure trigger, the unbound name
on its final line, embedded here as the name-error outcome. -/
theorem identify_lattice_no_match_placeholder_failure
    (rg : Mat3 → Except PyErr Lat) (bn : List String) (nd : String → ℕ)
    (nr : Mat3 → Mat3 × Mat3) (cell : Mat3)
    (h : ∀ name ∈ bn, name ∉ ["MCL", "MCLC", "TRI"] → ¬ nd name < 3 →
      check_type rg (nr cell).1 name = .ok []) :
    identify_lattice rg bn nd nr cell = .error .nameError :=
  identifyGo_no_match rg bn nd (nr cell).1 bn h

/-- Claim C2: families are tried in the enumeration order of the
Bravais-family list; if every tested family before F validates nothing
and F validates the list L, then identify_lattice returns exactly the
first member of L in bravais_names enumeration order (firstByName), a
candidate of family F, regardless of what later families would do. -/
theorem identify_lattice_first_family_order
    (rg : Mat3 → Except PyErr Lat) (bn : List String) (nd : String → ℕ)
    (nr : Mat3 → Mat3 × Mat3) (cell : Mat3) (l1 l2 : List String)
    (F : String) (L : List Lat) (lat : Lat)
    (hbn : bn = l1 ++ F :: l2)
    (hpre : ∀ G ∈ l1, G ∉ ["MCL", "MCLC", "TRI"] → ¬ nd G < 3 →
      check_type rg (nr cell).1 G = .ok [])
    (hF1 : F ∉ ["MCL", "MCLC", "TRI"]) (hF2 : ¬ nd F < 3)
    (hF : check_type rg (nr cell).1 F = .ok L)
    (hfb : firstByName bn L = some lat) :
    identify_lattice rg bn nd nr cell = .ok lat ∧ lat ∈ L := by
  subst hbn
  refine ⟨?_, firstByName_mem hfb⟩
  rw [identify_lattice, identifyGo_skip_pre rg _ nd _ _ l1 hpre, identifyGo,
    if_neg hF1, if_neg hF2]
  simp only [hF, hfb]

/-- Claim C6: identification never considers the triclinic or
monoclinic variants nor families of dimension below three: the outer
loop equals the skip-free loop on the pre-filtered name list, and any
validated candidate whose recognised family is TRI, MCL or MCLC has
been discarded from every list check_type returns. -/
theorem identify_skips_excluded_families
    (rg : Mat3 → Except PyErr Lat) (bn : List String) (nd : String → ℕ)
    (nr : Mat3 → Mat3 × Mat3) (cell rcell2 : Mat3) (name : String)
    (l : List Lat) :
    identify_lattice rg bn nd nr cell
        = identifyGoF rg bn (nr cell).1 (bn.filter (keepName nd)) ∧
      (check_type rg rcell2 name = .ok l →
        ∀ lat ∈ l, lat.name ∉ ["TRI", "MCL", "MCLC"]) := by
  constructor
  · rw [identify_lattice, identifyGo_filter]
  · intro h
    rw [check_type] at h
    cases hl : lookupTable name with
    | none => rw [hl] at h; exact absurd h (by simp)
    | some ops => rw [hl] at h; exact checkOps_names rg rcell2 ops l h

lemma lookup_CUB : lookupTable "CUB" = some [idOp] := rfl

lemma candidate_id (rcell : Mat3) : candidateCell idOp rcell = rcell := by
  rw [candidateCell, toMat3_idOp, transpose_one, inv_one, one_mul_mat]

lemma recognize_cubic_threeI : recognize_cubic threeI = .ok cubLat := by
  simp [recognize_cubic]

lemma det_idOp_transpose : Mat3.det (Mat3.transpose (IntOp.toMat3 idOp)) = 1 := by
  rw [toMat3_idOp, transpose_one, det_one]

lemma checkType_cubic : check_type recognize_cubic threeI "CUB" = .ok [cubLat] := by
  simp only [check_type, lookup_CUB]
  rw [checkOps, if_neg (by rw [det_idOp_transpose]; norm_num)]
  simp only [candidate_id, recognize_cubic_threeI]
  simp [cubLat, checkOps, Except.map]

lemma firstByName_cubic : firstByName bravais_names_model [cubLat] = some cubLat := rfl

lemma identifyGo_step_ok (rg : Mat3 → Except PyErr Lat) (bn : List String)
    (nd : String → ℕ) (rcell : Mat3) (t : String) (rest : List String)
    (results : List Lat) (lat : Lat)
    (h1 : t ∉ ["MCL", "MCLC", "TRI"]) (h2 : ¬ nd t < 3)
    (hct : check_type rg rcell t = .ok results)
    (hfb : firstByName bn results = some lat) :
    identifyGo rg bn nd rcell (t :: rest) = .ok lat := by
  rw [identifyGo, if_neg h1, if_neg h2]
  simp only [hct, hfb]

lemma identify_cubic :
    identify_lattice recognize_cubic bravais_names_model ndim_model nr_id threeI
      = .ok cubLat :=
  identifyGo_step_ok recognize_cubic bravais_names_model ndim_model threeI "CUB"
    ["FCC", "BCC", "TET", "BCT", "ORC", "ORCF", "ORCI", "ORCC", "HEX", "RHL",
     "MCL", "MCLC", "TRI"]
    [cubLat] cubLat (by decide) (by decide) checkType_cubic firstByName_cubic

lemma cellpar_threeI : cellpar threeI = ⟨3, 3, 3, 90, 90, 90⟩ := by
  rw [threeI]
  exact cellpar_diag 3 3 3 (by norm_num) (by norm_num) (by norm_num)

/-- Claim C8: for the cubic cell with edge length three and right
angles, identification (under the spec-modelled reduction, recogniser
and family enumeration, whose real implementations live outside the
verified sources) returns the cubic family, and the returned lattice
has cell parameters with lengths three, three, three and angles ninety,
ninety, ninety, hence within 1e-8 of those values. -/
theorem identify_cubic_cell :
    identify_lattice recognize_cubic bravais_names_model ndim_model nr_id threeI
        = .ok cubLat ∧
      cubLat.name = "CUB" ∧
      cellpar cubLat.tocell = ⟨3, 3, 3, 90, 90, 90⟩ ∧
      cellparMaxAbsDiff (cellpar cubLat.tocell) ⟨3, 3, 3, 90, 90, 90⟩ < 1e-8 := by
  refine ⟨identify_cubic, rfl, cellpar_threeI, ?_⟩
  rw [show cubLat.tocell = threeI from rfl, cellpar_threeI]
  simp only [cellparMaxAbsDiff]
  norm_num

lemma check_type_none (rcell : Mat3) (name : String) {ops : List IntOp}
    (h : lookupTable name = some ops) :
    check_type recognize_none rcell name = .ok [] := by
  simp only [check_type, h]
  rw [checkOps_eq recognize_none rcell ops (table_dets_nonzero h)
    (by intro c e he; cases he; rfl)]
  simp [acceptOp, recognize_none]

/-- Witness for claim C1: with a recogniser that validates nothing, the
identification of the cubic cell over the modelled family enumeration
reaches the placeholder failure. -/
theorem identify_lattice_no_match_placeholder_failure_witness :
    identify_lattice recognize_none bravais_names_model ndim_model nr_id threeI
      = .error .nameError := by
  apply identify_lattice_no_match_placeholder_failure
  intro name hname h1 h2
  fin_cases hname <;>
    first
      | exact check_type_none _ _ rfl
      | exact absurd (by decide) h1

/-- Witness for claim C2: with the cubic family first in the modelled
enumeration and the cubic recogniser, identification returns the single
accepted candidate. -/
theorem identify_lattice_first_family_order_witness :
    identify_lattice recognize_cubic bravais_names_model ndim_model nr_id threeI
        = .ok cubLat ∧ cubLat ∈ [cubLat] :=
  identify_lattice_first_family_order recognize_cubic bravais_names_model
    ndim_model nr_id threeI []
    ["FCC", "BCC", "TET", "BCT", "ORC", "ORCF", "ORCI", "ORCC", "HEX", "RHL",
     "MCL", "MCLC", "TRI"]
    "CUB" [cubLat] cubLat rfl
    (fun G hG => absurd hG (List.not_mem_nil G))
    (by decide) (by decide) checkType_cubic firstByName_cubic

/-- Witness for claim C6: the loop-filter equality at the cubic model
instance, and the exclusion fact applied to a concrete successful
check_type run. -/
theorem identify_skips_excluded_families_witness :
    identify_lattice recognize_cubic bravais_names_model ndim_model nr_id threeI
        = identifyGoF recognize_cubic bravais_names_model (nr_id threeI).1
            (bravais_names_model.filter (keepName ndim_model)) ∧
      ∀ lat ∈ [cubLat], lat.name ∉ ["TRI", "MCL", "MCLC"] :=
  ⟨(identify_skips_excluded_families recognize_cubic bravais_names_model
      ndim_model nr_id threeI threeI "CUB" [cubLat]).1,
   (identify_skips_excluded_families recognize_cubic bravais_names_model
      ndim_model nr_id threeI threeI "CUB" [cubLat]).2 checkType_cubic⟩

/-- Claim C9: for every reduced cell and every family name present in
the operator table, check_type returns a list (possibly empty) whenever
every recogniser failure is one of the caught exception kinds
(AssertionError, UnconventionalLattice, RuntimeError); the returned
list is the filter-map over all operators of the family, so a failure
on one operator never prevents later operators from being tried. -/
theorem check_type_total_list (rg : Mat3 → Except PyErr Lat) (rcell : Mat3)
    (name : String) (ops : List IntOp)
    (hops : lookupTable name = some ops)
    (hc : ∀ c e, rg c = .error e → caughtErr e = true) :
    check_type rg rcell name = .ok (ops.filterMap (acceptOp rg rcell)) := by
  simp only [check_type, hops]
  exact checkOps_eq rg rcell ops (table_dets_nonzero hops) hc

/-- Witness for claim C9: the hexagonal family with a recogniser that
always fails with the unconventional-lattice condition yields an
ordinary (empty) list. -/
theorem check_type_total_list_witness :
    check_type recognize_none threeI "HEX"
      = .ok (([⟨1, 0, 0, 0, 1, 0, 0, 0, 1⟩,
               ⟨0, 1, 0, 0, 0, 1, 1, 0, 0⟩] : List IntOp).filterMap
          (acceptOp recognize_none threeI)) :=
  check_type_total_list recognize_none threeI "HEX" _ rfl
    (by intro c e he; cases he; rfl)

/-- Claim C10: every matrix in the static operator table is a 3 by 3
integer matrix of determinant plus or minus one, and the inverse of its
transpose, the matrix applied during identification, exists and is
itself integer-valued: the explicitly constructed integer matrix
intInvT op is a two-sided inverse of the transpose. -/
theorem niggli_op_table_unimodular :
    ∀ p ∈ niggli_op_table, ∀ op ∈ p.2,
      (op.detZ = 1 ∨ op.detZ = -1) ∧
      IntOp.mulZ op.transposeZ (intInvT op) = idOp ∧
      IntOp.mulZ (intInvT op) op.transposeZ = idOp := by
  decide

/-- Witness for claim C10 at the first table entry. -/
theorem niggli_op_table_unimodular_witness :
    (idOp.detZ = 1 ∨ idOp.detZ = -1) ∧
      IntOp.mulZ idOp.transposeZ (intInvT idOp) = idOp ∧
      IntOp.mulZ (intInvT idOp) idOp.transposeZ = idOp :=
  niggli_op_table_unimodular ("BCC", [idOp]) (by decide) idOp (by decide)

lemma paramGrids_ok (lengthGrid angleGrid : List ℝ) :
    ∀ params : List String,
      (∀ v ∈ params, isInfixChars v.data ['a', 'b', 'c'] = true ∨ v = "alpha") →
      ∃ grids, paramGrids lengthGrid angleGrid params = .ok grids := by
  intro params
  induction params with
  | nil => intro _; exact ⟨[], rfl⟩
  | cons v rest ih =>
    intro h
    obtain ⟨gs, hgs⟩ := ih (fun x hx => h x (List.mem_cons_of_mem _ hx))
    rcases h v (List.mem_cons_self _ _) with h1 | h1
    · refine ⟨lengthGrid :: gs, ?_⟩
      rw [paramGrids, paramGrid, if_pos h1]
      simp [hgs, Except.map]
    · refine ⟨angleGrid :: gs, ?_⟩
      subst h1
      rw [paramGrids, paramGrid, if_neg (by decide), if_pos rfl]
      simp [hgs, Except.map]

lemma collectLats_eq (latcls : LatCls)
    (hc : ∀ ps, (∃ lat, latcls.construct ps = .ok lat) ∨
      latcls.construct ps = .error .unconventionalLattice) :
    ∀ combos : List (List ℝ),
      collectLats latcls combos
        = .ok (combos.filterMap (fun ps => (latcls.construct ps).toOption)) := by
  intro combos
  induction combos with
  | nil => rfl
  | cons ps rest ih =>
    rw [collectLats]
    rcases hc ps with ⟨lat, hl⟩ | hl
    · simp only [hl, ih]
      simp [Except.toOption, hl, Except.map]
    · simp only [hl, ih]
      simp [Except.toOption, hl]

/-- Claim C5: for a family descriptor over length and angle parameters,
the sampler yields exactly the parameter combinations whose
construction succeeds; combinations rejected with the
unconventional-lattice condition are silently skipped, and the
discovered-operator tally of find_niggli_ops is computed from exactly
the surviving lattices. -/
theorem lattice_loop_skips_unconventional (latcls : LatCls)
    (lengthGrid angleGrid : List ℝ) (nr : Mat3 → Mat3 × Mat3)
    (hp : ∀ v ∈ latcls.parameters,
      isInfixChars v.data ['a', 'b', 'c'] = true ∨ v = "alpha")
    (hc : ∀ ps, (∃ lat, latcls.construct ps = .ok lat) ∨
      latcls.construct ps = .error .unconventionalLattice) :
    ∃ grids, paramGrids lengthGrid angleGrid latcls.parameters = .ok grids ∧
      lattice_loop latcls lengthGrid angleGrid
        = .ok ((listProd grids).filterMap
            (fun ps => (latcls.construct ps).toOption)) ∧
      find_niggli_ops nr latcls lengthGrid angleGrid
        = find_niggli_opsGo nr
            ((listProd grids).filterMap
              (fun ps => (latcls.construct ps).toOption)) [] := by
  obtain ⟨grids, hg⟩ := paramGrids_ok lengthGrid angleGrid latcls.parameters hp
  have hll : lattice_loop latcls lengthGrid angleGrid
      = .ok ((listProd grids).filterMap
          (fun ps => (latcls.construct ps).toOption)) := by
    rw [lattice_loop]
    simp only [hg]
    exact collectLats_eq latcls hc (listProd grids)
  refine ⟨grids, hg, hll, ?_⟩
  rw [find_niggli_ops]
  simp only [hll]

/-- Witness for claim C5: a descriptor with one length parameter over
the grid with values two and three, rejecting the combination with
value two: the rejected combination is skipped and the tally is run on
the single surviving lattice. -/
theorem lattice_loop_skips_unconventional_witness :
    ∃ grids, paramGrids [2, 3] [] skipLatCls.parameters = .ok grids ∧
      lattice_loop skipLatCls [2, 3] []
        = .ok ((listProd grids).filterMap
            (fun ps => (skipLatCls.construct ps).toOption)) ∧
      find_niggli_ops nr_id skipLatCls [2, 3] []
        = find_niggli_opsGo nr_id
            ((listProd grids).filterMap
              (fun ps => (skipLatCls.construct ps).toOption)) [] := by
  apply lattice_loop_skips_unconventional
  · intro v hv
    left
    rw [show skipLatCls.parameters = ["a"] from rfl] at hv
    rcases List.mem_cons.mp hv with rfl | hv2
    · decide
    · exact absurd hv2 (List.not_mem_nil v)
  · intro ps
    by_cases h : ps = [2]
    · right; simp [skipLatCls, h]
    · left; exact ⟨⟨"X", threeI⟩, by simp [skipLatCls, h]⟩

lemma find_go_ok_all (nr : Mat3 → Mat3 × Mat3) :
    ∀ (lats : List Lat) (acc t : List (IntOp × ℕ)),
      find_niggli_opsGo nr lats acc = .ok t →
      ∀ lat ∈ lats, passesChecks nr lat := by
  intro lats
  induction lats with
  | nil => intro acc t _ lat hl; exact absurd hl (List.not_mem_nil lat)
  | cons l0 rest ih =>
    intro acc t h lat hl
    rw [find_niggli_opsGo] at h
    by_cases c1 : Mat3.maxAbsDiff (nr l0.tocell).2
        (roundMat (nr l0.tocell).2).toMat3 < 1e-12
    swap
    · rw [if_pos c1] at h; exact absurd h (by simp)
    rw [if_neg (not_not_intro c1)] at h
    by_cases c2 : Mat3.det (nr l0.tocell).2 = 0
    · rw [if_pos c2] at h; exact absurd h (by simp)
    rw [if_neg c2] at h
    by_cases c3 : Mat3.maxAbsDiff (Mat3.inv (nr l0.tocell).2)
        (roundMat (Mat3.inv (nr l0.tocell).2)).toMat3 < 1e-12
    swap
    · rw [if_pos c3] at h; exact absurd h (by simp)
    rw [if_neg (not_not_intro c3)] at h
    by_cases c4 : cellparMaxAbsDiff
        (cellpar (Mat3.mul (Mat3.transpose (nr l0.tocell).2) l0.tocell))
        (cellpar (nr l0.tocell).1) < 1e-7
    swap
    · rw [if_pos c4] at h; exact absurd h (by simp)
    rw [if_neg (not_not_intro c4)] at h
    rcases List.mem_cons.mp hl with rfl | hl2
    · exact ⟨c1, c2, c3, c4⟩
    · exact ih _ _ h lat hl2

lemma find_go_fail_first (nr : Mat3 → Mat3 × Mat3) (lat : Lat) (post : List Lat)
    (hfail : ¬ Mat3.maxAbsDiff (nr lat.tocell).2
        (roundMat (nr lat.tocell).2).toMat3 < 1e-12
      ∨ (Mat3.det (nr lat.tocell).2 ≠ 0 ∧
         ¬ Mat3.maxAbsDiff (Mat3.inv (nr lat.tocell).2)
            (roundMat (Mat3.inv (nr lat.tocell).2)).toMat3 < 1e-12)) :
    ∀ (pre : List Lat) (acc : List (IntOp × ℕ)),
      (∀ l ∈ pre, passesChecks nr l) →
      find_niggli_opsGo nr (pre ++ lat :: post) acc = .error .assertionError := by
  intro pre
  induction pre with
  | nil =>
    intro acc _
    rw [List.nil_append, find_niggli_opsGo]
    by_cases c1 : Mat3.maxAbsDiff (nr lat.tocell).2
        (roundMat (nr lat.tocell).2).toMat3 < 1e-12
    swap
    · rw [if_pos c1]
    rw [if_neg (not_not_intro c1)]
    rcases hfail with h1 | ⟨h2, h3⟩
    · exact absurd c1 h1
    · rw [if_neg h2, if_pos h3]
  | cons p rest ih =>
    intro acc hpre
    have hp := hpre p (List.mem_cons_self _ _)
    rw [List.cons_append, find_niggli_opsGo, if_neg (not_not_intro hp.1),
      if_neg hp.2.1, if_neg (not_not_intro hp.2.2.1),
      if_neg (not_not_intro hp.2.2.2)]
    exact ih _ (fun l hl => hpre l (List.mem_cons_of_mem _ hl))

/-- Claim C4: for every sampled lattice, if operator discovery returns
a tally then the transform and its inverse round to integer matrices
within 1e-12; and if the first sample violating integrality is reached
(all samples before it passing every check), the computation signals
the internal consistency error, an assertion failure, producing no
tally at all. -/
theorem find_niggli_ops_integrality (nr : Mat3 → Mat3 × Mat3)
    (latcls : LatCls) (lengthGrid angleGrid : List ℝ) (lats : List Lat)
    (hll : lattice_loop latcls lengthGrid angleGrid = .ok lats) :
    (∀ t, find_niggli_ops nr latcls lengthGrid angleGrid = .ok t →
      ∀ lat ∈ lats,
        Mat3.maxAbsDiff (nr lat.tocell).2
          (roundMat (nr lat.tocell).2).toMat3 < 1e-12 ∧
        Mat3.maxAbsDiff (Mat3.inv (nr lat.tocell).2)
          (roundMat (Mat3.inv (nr lat.tocell).2)).toMat3 < 1e-12) ∧
    (∀ pre lat post, lats = pre ++ lat :: post →
      (∀ l ∈ pre, passesChecks nr l) →
      (¬ Mat3.maxAbsDiff (nr lat.tocell).2
          (roundMat (nr lat.tocell).2).toMat3 < 1e-12
        ∨ (Mat3.det (nr lat.tocell).2 ≠ 0 ∧
           ¬ Mat3.maxAbsDiff (Mat3.inv (nr lat.tocell).2)
              (roundMat (Mat3.inv (nr lat.tocell).2)).toMat3 < 1e-12)) →
      find_niggli_ops nr latcls lengthGrid angleGrid
        = .error .assertionError) := by
  constructor
  · intro t h lat hl
    rw [find_niggli_ops] at h
    simp only [hll] at h
    have hp := find_go_ok_all nr lats [] t h lat hl
    exact ⟨hp.1, hp.2.2.1⟩
  · intro pre lat post hdec hpre hfail
    rw [find_niggli_ops]
    simp only [hll]
    subst hdec
    exact find_go_fail_first nr lat post hfail pre [] hpre

lemma roundMat_quarter :
    roundMat (Mat3.diag (1 / 4) 1 1) = (⟨0, 0, 0, 0, 1, 0, 0, 0, 1⟩ : IntOp) := by
  rw [roundMat, Mat3.diag]
  simp only [round_zero, round_one, IntOp.mk.injEq, and_true, true_and]
  rw [round_eq, show (1 : ℝ) / 4 + 1 / 2 = 3 / 4 by norm_num]
  rw [Int.floor_eq_iff]
  constructor <;> norm_num

/-- Witness for claim C4: a reduction whose transform has the entry one
quarter fails the integrality assertion and the discovery run signals
the assertion error. -/
theorem find_niggli_ops_integrality_witness :
    find_niggli_ops nr_bad (singleLatCls cubLat) [3] [] = .error .assertionError := by
  have hll : lattice_loop (singleLatCls cubLat) [3] [] = .ok [cubLat] := rfl
  refine (find_niggli_ops_integrality nr_bad (singleLatCls cubLat) [3] []
    [cubLat] hll).2 [] cubLat [] rfl
    (fun l hl => absurd hl (List.not_mem_nil l)) (Or.inl ?_)
  rw [show (nr_bad cubLat.tocell).2 = Mat3.diag (1 / 4) 1 1 from rfl,
    roundMat_quarter, not_lt]
  have h2 : IntOp.toMat3 (⟨0, 0, 0, 0, 1, 0, 0, 0, 1⟩ : IntOp)
      = Mat3.diag 0 1 1 := by
    rw [IntOp.toMat3, Mat3.diag]
    norm_num
  rw [h2, Mat3.maxAbsDiff]
  refine le_trans ?_ (le_max_left _ _)
  rw [show (Mat3.diag (1 / 4) 1 1).a00 = (1 : ℝ) / 4 from rfl,
    show (Mat3.diag 0 1 1).a00 = (0 : ℝ) from rfl]
  rw [abs_of_nonneg (by norm_num)]
  norm_num

lemma find_go_single (nr : Mat3 → Mat3 × Mat3) (lat : Lat) (R : Mat3)
    (hnr : nr lat.tocell = (R, Mat3.one))
    (hclose : cellparMaxAbsDiff (cellpar lat.tocell) (cellpar R) < 1e-7) :
    find_niggli_opsGo nr [lat] [] = .ok [(idOp, 1)] := by
  rw [find_niggli_opsGo, hnr]
  simp only
  rw [roundMat_one, toMat3_idOp, maxAbsDiff_self,
    if_neg (not_not_intro (by norm_num : (0 : ℝ) < 1e-12)),
    if_neg (by rw [det_one]; norm_num), inv_one, roundMat_one, toMat3_idOp,
    maxAbsDiff_self, if_neg (not_not_intro (by norm_num : (0 : ℝ) < 1e-12)),
    transpose_one, one_mul_mat, if_neg (not_not_intro hclose),
    find_niggli_opsGo]
  rfl

lemma cellpar_cellTiny : cellpar cellTiny = ⟨1, 1, 1e-9, 90, 90, 90⟩ := by
  rw [cellTiny]
  exact cellpar_diag 1 1 1e-9 (by norm_num) (by norm_num) (by norm_num)

lemma cellpar_redTiny : cellpar redTiny = ⟨1, 1, 2e-9, 90, 90, 90⟩ := by
  rw [redTiny]
  exact cellpar_diag 1 1 2e-9 (by norm_num) (by norm_num) (by norm_num)

/-- Counterexample to claim C3 as stated: under a spec-consistent model
of the external Niggli reduction, a sampled lattice passes every check
of the operator-discovery step (the run returns a tally containing it),
yet the cell-parameter round trip violates the 1e-7 relative-error
bound the claim asserts: the code verifies the absolute difference of
the cell parameters, not a relative error. -/
theorem roundtrip_relative_error_cex :
    find_niggli_ops nr_tiny (singleLatCls ⟨"X", cellTiny⟩) [1] []
        = .ok [(idOp, 1)] ∧
      ¬ cellparRelErr
          (cellpar (Mat3.mul (Mat3.transpose Mat3.one) cellTiny))
          (cellpar redTiny) < 1e-7 := by
  constructor
  · have hll : lattice_loop (singleLatCls ⟨"X", cellTiny⟩) [1] []
        = .ok [⟨"X", cellTiny⟩] := rfl
    rw [find_niggli_ops]
    simp only [hll]
    apply find_go_single nr_tiny ⟨"X", cellTiny⟩ redTiny rfl
    rw [show Lat.tocell ⟨"X", cellTiny⟩ = cellTiny from rfl,
      cellpar_cellTiny, cellpar_redTiny, cellparMaxAbsDiff]
    simp only
    rw [show |(1 : ℝ) - 1| = 0 by norm_num,
      show |(1e-9 : ℝ) - 2e-9| = 1e-9 by rw [abs_of_nonpos (by norm_num)]; norm_num,
      show |(90 : ℝ) - 90| = 0 by norm_num]
    norm_num [max_lt_iff]
  · rw [transpose_one, one_mul_mat, cellpar_cellTiny, cellpar_redTiny,
      cellparRelErr, not_lt]
    simp only
    refine le_trans ?_ (le_trans (le_max_left _ _)
      (le_trans (le_max_right _ _) (le_max_right _ _)))
    rw [show |(1e-9 : ℝ) - 2e-9| = 1e-9 by rw [abs_of_nonpos (by norm_num)]; norm_num,
      show |(2e-9 : ℝ)| = 2e-9 by rw [abs_of_nonneg (by norm_num)]]
    norm_num

/-- Claim C3 (amended): for every lattice the sampler yields, operator
discovery verifies the round trip on the cell parameters of the
transformed cell against the reduced cell within 1e-7 in absolute
value: whenever the discovery run returns a tally, every sampled cell
satisfies that absolute bound. -/
theorem find_niggli_ops_roundtrip_absolute (nr : Mat3 → Mat3 × Mat3)
    (latcls : LatCls) (lengthGrid angleGrid : List ℝ)
    (lats : List Lat) (t : List (IntOp × ℕ))
    (hll : lattice_loop latcls lengthGrid angleGrid = .ok lats)
    (hok : find_niggli_ops nr latcls lengthGrid angleGrid = .ok t) :
    ∀ lat ∈ lats,
      cellparMaxAbsDiff
        (cellpar (Mat3.mul (Mat3.transpose (nr lat.tocell).2) lat.tocell))
        (cellpar (nr lat.tocell).1) < 1e-7 := by
  intro lat hl
  rw [find_niggli_ops] at hok
  simp only [hll] at hok
  exact (find_go_ok_all nr lats [] t hok lat hl).2.2.2

/-- Witness for claim C3 as amended: a successful single-sample
discovery run under the identity reduction satisfies the absolute
round-trip bound. -/
theorem find_niggli_ops_roundtrip_absolute_witness :
    cellparMaxAbsDiff
        (cellpar (Mat3.mul (Mat3.transpose (nr_id cubLat.tocell).2)
          cubLat.tocell))
        (cellpar (nr_id cubLat.tocell).1) < 1e-7 := by
  have hll : lattice_loop (singleLatCls cubLat) [3] [] = .ok [cubLat] := rfl
  have hok : find_niggli_ops nr_id (singleLatCls cubLat) [3] []
      = .ok [(idOp, 1)] := by
    rw [find_niggli_ops]
    simp only [hll]
    apply find_go_single nr_id cubLat cubLat.tocell rfl
    simp only [cellparMaxAbsDiff, sub_self, abs_zero, max_self]
    norm_num
  exact find_niggli_ops_roundtrip_absolute nr_id (singleLatCls cubLat) [3] []
    [cubLat] [(idOp, 1)] hll hok cubLat (List.mem_cons_self _ _)

lemma mem_filterMap_acceptOp {rg : Mat3 → Except PyErr Lat} {rcell : Mat3}
    {ops : List IntOp} {lat : Lat}
    (h : lat ∈ ops.filterMap (acceptOp rg rcell)) :
    ∃ op ∈ ops, rg (candidateCell op rcell) = .ok lat := by
  obtain ⟨op, hop, hacc⟩ := List.mem_filterMap.mp h
  refine ⟨op, hop, ?_⟩
  rw [acceptOp] at hacc
  cases hrg : rg (candidateCell op rcell) with
  | error e => rw [hrg] at hacc; exact absurd hacc (by simp)
  | ok lat2 =>
    rw [hrg] at hacc
    by_cases hn : lat2.name ∈ ["TRI", "MCL", "MCLC"]
    · simp [hn] at hacc
    · simp only [if_neg hn, Option.some.injEq] at hacc
      rw [hacc]

lemma acceptOp_of_ok {rg : Mat3 → Except PyErr Lat} {rcell : Mat3}
    {op : IntOp} {lat : Lat}
    (hrg : rg (candidateCell op rcell) = .ok lat)
    (hn : lat.name ∉ ["TRI", "MCL", "MCLC"]) :
    acceptOp rg rcell op = some lat := by
  rw [acceptOp]
  simp only [hrg, if_neg hn]

lemma identifyGo_reaches (rg : Mat3 → Except PyErr Lat) (bn : List String)
    (nd : String → ℕ) (rcell : Mat3) (F : String)
    (hkF1 : F ∉ ["MCL", "MCLC", "TRI"]) (hkF2 : ¬ nd F < 3)
    (htab : ∃ ops op lat, lookupTable F = some ops ∧ op ∈ ops ∧
      rg (candidateCell op rcell) = .ok lat ∧ lat.name ∈ bn ∧
      lat.name ∉ ["TRI", "MCL", "MCLC"])
    (hc : ∀ c e, rg c = .error e → caughtErr e = true) :
    ∀ lst : List String, F ∈ lst →
      (∀ n ∈ lst, n ∉ ["MCL", "MCLC", "TRI"] → ¬ nd n < 3 →
        (lookupTable n).isSome) →
      ∃ out, identifyGo rg bn nd rcell lst = .ok out ∧
        ∃ (n : String) (ops : List IntOp) (op : IntOp),
          lookupTable n = some ops ∧ op ∈ ops ∧
          rg (candidateCell op rcell) = .ok out := by
  intro lst
  induction lst with
  | nil => intro hF _; exact absurd hF (List.not_mem_nil F)
  | cons t rest ih =>
    intro hF hkeys
    have hkr := fun n hn => hkeys n (List.mem_cons_of_mem _ hn)
    rw [identifyGo]
    by_cases h1 : t ∈ ["MCL", "MCLC", "TRI"]
    · rw [if_pos h1]
      refine ih ?_ hkr
      rcases List.mem_cons.mp hF with rfl | h
      · exact absurd h1 hkF1
      · exact h
    rw [if_neg h1]
    by_cases h2 : nd t < 3
    · rw [if_pos h2]
      refine ih ?_ hkr
      rcases List.mem_cons.mp hF with rfl | h
      · exact absurd h2 hkF2
      · exact h
    rw [if_neg h2]
    obtain ⟨ops, hops⟩ :=
      Option.isSome_iff_exists.mp (hkeys t (List.mem_cons_self _ _) h1 h2)
    have hct : check_type rg rcell t = .ok (ops.filterMap (acceptOp rg rcell)) := by
      simp only [check_type, hops]
      exact checkOps_eq rg rcell ops (table_dets_nonzero hops) hc
    cases hfb : firstByName bn (ops.filterMap (acceptOp rg rcell)) with
    | some out =>
      simp only [hct, hfb]
      refine ⟨out, rfl, ?_⟩
      obtain ⟨op, hop, hrg⟩ := mem_filterMap_acceptOp (firstByName_mem hfb)
      exact ⟨t, ops, op, hops, hop, hrg⟩
    | none =>
      simp only [hct, hfb]
      by_cases htF : t = F
      · exfalso
        subst htF
        obtain ⟨ops2, op, lat, hops2, hop, hrg, hnbn, hnx⟩ := htab
        have hhh : ops2 = ops := by
          rw [hops] at hops2
          exact (Option.some.inj hops2).symm
        subst hhh
        have hmem : lat ∈ ops2.filterMap (acceptOp rg rcell) :=
          List.mem_filterMap.mpr ⟨op, hop, acceptOp_of_ok hrg hnx⟩
        have hsome := firstByName_isSome hmem hnbn
        rw [hfb] at hsome
        exact absurd hsome (by simp)
      · refine ih ?_ hkr
        rcases List.mem_cons.mp hF with rfl | h
        · exact absurd rfl htF
        · exact h

/-- Claim C7 (idempotence): if the input cell is the conventional form
of a non-excluded three-dimensional family F of the enumeration, and
the externally implemented reduction and recogniser (outside the
verified sources) satisfy the contracts the spec states for them - F
has a table operator whose candidate is recognised as a non-excluded
family of the enumeration, recogniser failures are the expected caught
kinds, every tested family name is a table key, and any lattice
recognised from a candidate of the reduced cell carries the cell
parameters of the input cell - then identify_lattice returns a lattice
whose conventional cell has exactly the cell parameters of the input
cell (hence within any positive tolerance such as 1e-8). -/
theorem identify_idempotent_on_conventional
    (rg : Mat3 → Except PyErr Lat) (bn : List String) (nd : String → ℕ)
    (nr : Mat3 → Mat3 × Mat3) (cell : Mat3) (F : String)
    (hF : F ∈ bn) (hkF1 : F ∉ ["MCL", "MCLC", "TRI"]) (hkF2 : ¬ nd F < 3)
    (hkeys : ∀ n ∈ bn, n ∉ ["MCL", "MCLC", "TRI"] → ¬ nd n < 3 →
      (lookupTable n).isSome)
    (hc : ∀ c e, rg c = .error e → caughtErr e = true)
    (htab : ∃ ops op lat, lookupTable F = some ops ∧ op ∈ ops ∧
      rg (candidateCell op (nr cell).1) = .ok lat ∧ lat.name ∈ bn ∧
      lat.name ∉ ["TRI", "MCL", "MCLC"])
    (hsound : ∀ (n : String) (ops : List IntOp) (op : IntOp) (lat : Lat),
      lookupTable n = some ops → op ∈ ops →
      rg (candidateCell op (nr cell).1) = .ok lat →
      cellpar lat.tocell = cellpar cell) :
    ∃ out, identify_lattice rg bn nd nr cell = .ok out ∧
      cellpar out.tocell = cellpar cell := by
  obtain ⟨out, hgo, n, ops, op, hops, hop, hrg⟩ :=
    identifyGo_reaches rg bn nd (nr cell).1 F hkF1 hkF2 htab hc bn hF hkeys
  exact ⟨out, hgo, hsound n ops op out hops hop hrg⟩

/-- Witness for claim C7: the conventional cubic cell under the
spec-modelled reduction and recogniser. -/
theorem identify_idempotent_on_conventional_witness :
    ∃ out, identify_lattice recognize_cubic bravais_names_model ndim_model
        nr_id threeI = .ok out ∧
      cellpar out.tocell = cellpar threeI := by
  apply identify_idempotent_on_conventional recognize_cubic
    bravais_names_model ndim_model nr_id threeI "CUB"
  · decide
  · decide
  · decide
  · intro n hn h1 h2
    fin_cases hn <;> first | exact absurd (by decide) h1 | rfl
  · intro c e he
    simp only [recognize_cubic] at he
    by_cases hc : c = threeI
    · rw [if_pos hc] at he; exact absurd he (by simp)
    · rw [if_neg hc] at he
      cases he
      rfl
  · refine ⟨[idOp], idOp, cubLat, rfl, List.mem_cons_self _ _, ?_, by decide,
      by decide⟩
    rw [show (nr_id threeI).1 = threeI from rfl, candidate_id]
    exact recognize_cubic_threeI
  · intro n ops op lat hops hop hrg
    rw [show (nr_id threeI).1 = threeI from rfl] at hrg
    simp only [recognize_cubic] at hrg
    by_cases hc2 : candidateCell op threeI = threeI
    · rw [if_pos hc2] at hrg
      have hl := Except.ok.inj hrg
      rw [← hl]
      rfl
    · rw [if_neg hc2] at hrg
      exact absurd hrg (by simp)

end NiggliClasses
